import Mathlib

/-!
Shallow embedding of the tournament progression engine of the
`beach-tenis` repository (files `tournaments/models.py` and
`tournaments/views.py`), together with proofs settling the frozen
claims about its specification.

Modelling conventions:
* Database rows are plain structures; primary keys / foreign keys are
  `Nat` ids (Django ids are positive, so `0` plays the role of a falsy /
  missing id where the Python code tests truthiness of an id).
* Query sets ordered by `created_at` are modelled as Lean lists kept in
  insertion order (`auto_now_add` timestamps are monotone in insertion
  order), so `order_by("created_at")` is the list itself and
  `order_by("-created_at").first()` is the last element.
* Python dictionaries keyed in insertion order are modelled as
  association lists; `dict.setdefault(k, []).append(v)` is
  `setdefaultAppend`.
* `list.sort(key=..., reverse=True)` / `sorted(...)` are modelled by a
  stable insertion sort (`sortDescBy`), matching Python's stable sort.
-/

namespace BeachTennis

/-- `Participant.Gender` (models.py): `M`, `F`, `X` (mixed/flexible). -/
inductive Gender where
  | male
  | female
  | mixed
deriving DecidableEq, Repr

/-- `Team.Division` (models.py): `M`, `F`, `X`. -/
inductive Division where
  | male
  | female
  | mixed
deriving DecidableEq, Repr

/-- `TournamentTeam.Stage` (models.py): `group`, `knockout`. -/
inductive Stage where
  | group
  | knockout
deriving DecidableEq, Repr

/-- `Participant` (models.py): the fields the engine reads. -/
structure ParticipantR where
  pk : Nat
  gender : Gender
  category : Nat
deriving DecidableEq, Repr

/-- The lookup key of `Team.objects.get_or_create` in
`_create_tournament_team` (views.py 833-839): `player_one`, `player_two`,
`category`, `division` (also the `unique_team_pair` constraint fields). -/
structure TeamKey where
  player_one : Nat
  player_two : Nat
  category : Nat
  division : Division
deriving DecidableEq, Repr

/-- `TournamentTeam` (models.py): enrollment of a team into a tournament.
`group_label` is a blank-able `CharField`, so the unlabeled state is `""`. -/
structure Enrollment where
  team : Nat
  group_label : String
  stage : Stage
  seed : Option Nat
deriving DecidableEq, Repr

/-- `Match` (models.py): the fields the engine reads/writes.  Team
references are ids; `winner` is nullable. -/
structure Match where
  round_name : String
  team_one : Nat
  team_two : Nat
  winner : Option Nat
  team_one_sets_won : Nat
  team_two_sets_won : Nat
  team_one_point_sequence : List String
  team_two_point_sequence : List String
deriving DecidableEq, Repr

/-- `SetScore` (models.py). -/
structure SetScoreR where
  set_number : Nat
  team_one_games : Nat
  team_two_games : Nat
  tie_break_played : Bool
  team_one_tie_break_points : Option Nat
  team_two_tie_break_points : Option Nat
deriving DecidableEq, Repr

/-- One row of `Tournament.build_standings` (models.py 376-388); the
`game_balance` key is added just before ordering (models.py 401). -/
structure StandingsRow where
  team : Nat
  /-- The Python dict key is `"matches"`. -/
  matchesPlayed : Nat
  wins : Nat
  losses : Nat
  sets : Nat
  points : Nat
  games_for : Nat
  games_against : Nat
  game_balance : Int := 0
deriving DecidableEq, Repr

/-- The per-tournament state the progression engine reads and writes:
its matches (insertion order) and its enrollments. -/
structure TournamentState where
  /-- `tournament.matches`, in insertion (`created_at`) order. -/
  matchRows : List Match
  enrollments : List Enrollment
deriving DecidableEq, Repr

/- ## String primitives

Python's `str.upper`, `str.strip` and string ordering, modelled over
the character list (`String.toUpper`, `String.trim` and `String.lt` in
core Lean are irreducible in the kernel, so the engine's string
operations are spelled out on `String.data` instead). -/

/-- Python `str.upper()`: upper-case every character. -/
def pyUpper (s : String) : String := String.mk (s.data.map Char.toUpper)

/-- Python `str.strip()`: drop whitespace from both ends. -/
def pyStrip (s : String) : String :=
  String.mk (((s.data.dropWhile Char.isWhitespace).reverse.dropWhile
    Char.isWhitespace).reverse)

/-- Lexicographic comparison of character lists (Python `<` on `str`). -/
def charListLt : List Char → List Char → Bool
  | [], [] => false
  | [], _ :: _ => true
  | _ :: _, [] => false
  | a :: as_, b :: bs =>
    if a < b then true else if b < a then false else charListLt as_ bs

/-- Python `<` on strings. -/
def strLt (a b : String) : Bool := charListLt a.data b.data

/- ## ScoreModel (models.py `Match` / `SetScore`) -/

/-- `Match.POINT_VALUES` (models.py 471) as a total function; the
Python code reads it with `.get(..., 0)`, so unknown tokens map to 0. -/
def pointValue (s : String) : Nat :=
  if s = "15" then 15
  else if s = "30" then 30
  else if s = "40" then 40
  else if s = "45" then 45
  else if s = "GAME" then 60
  else 0

/-- The allowed-token set of `Match._normalize_point_sequence`
(models.py 526). -/
def allowedPointTokens : List String := ["15", "30", "40", "45", "GAME"]

/-- The error raised by `_normalize_point_sequence` on a bad token. -/
inductive PointError where
  | invalidPointToken
deriving DecidableEq, Repr

/-- `Match._normalize_point_sequence` (models.py 524-537): strip and
upper-case each value, drop blanks, error on a token outside the
allowed set, keep the rest in order. -/
def normalizePointSequence : List String → Except PointError (List String)
  | [] => Except.ok []
  | v :: rest =>
    let candidate := pyUpper (pyStrip v)
    if candidate = "" then normalizePointSequence rest
    else if allowedPointTokens.contains candidate then
      match normalizePointSequence rest with
      | Except.ok l => Except.ok (candidate :: l)
      | Except.error e => Except.error e
    else Except.error PointError.invalidPointToken

/-- A token that is blank after stripping, or in the allowed set after
upper-casing. -/
def blankOrAllowed (v : String) : Bool :=
  pyUpper (pyStrip v) = "" || allowedPointTokens.contains (pyUpper (pyStrip v))

/-- Modelled from the spec's words (§4.1 `normalizePointSequence`):
validate every token as blank-or-allowed, and on success return the
upper-cased non-blank tokens in order; otherwise fail with
`InvalidPointToken`.  Used only to compare against the source-derived
`normalizePointSequence`. -/
def specNormalizePointSequence (values : List String) : Except PointError (List String) :=
  if values.all blankOrAllowed then
    Except.ok ((values.map (fun v => pyUpper (pyStrip v))).filter (fun c => c ≠ ""))
  else Except.error PointError.invalidPointToken

/-- `Match.accumulated_points` (models.py 539-543) applied to one point
sequence: sum of `POINT_VALUES.get(str(value).upper(), 0)`. -/
def accumulatedPoints (seq : List String) : Nat :=
  (seq.map (fun v => pointValue (pyUpper v))).sum

/-- `Match.update_totals` (models.py 552-564) with the set-score list
made explicit: count the sets each side wins outright, then set the
winner when the counts differ. -/
def updateTotals (m : Match) (set_scores : List SetScoreR) : Match :=
  let team_one_sets := (set_scores.filter (fun s => s.team_one_games > s.team_two_games)).length
  let team_two_sets := (set_scores.filter (fun s => s.team_two_games > s.team_one_games)).length
  let winner : Option Nat :=
    if team_one_sets ≠ team_two_sets then
      (if team_one_sets > team_two_sets then some m.team_one else some m.team_two)
    else none
  { m with
    team_one_sets_won := team_one_sets
    team_two_sets_won := team_two_sets
    winner := winner }

/- ## Stable sorting (Python `sorted` / `list.sort`) -/

/-- Insert `x` into a list already sorted descending by `key`, after
every element whose key is strictly greater — the insertion step of a
stable descending sort (Python `sort(key=..., reverse=True)`). -/
def insertDescBy {α κ : Type} (lt : κ → κ → Bool) (key : α → κ) (x : α) : List α → List α
  | [] => [x]
  | y :: ys => if lt (key x) (key y) then y :: insertDescBy lt key x ys else x :: y :: ys

/-- Stable descending insertion sort: elements with equal keys keep
their original relative order, as Python's stable sort does. -/
def sortDescBy {α κ : Type} (lt : κ → κ → Bool) (key : α → κ) : List α → List α
  | [] => []
  | x :: xs => insertDescBy lt key x (sortDescBy lt key xs)

/-- Lexicographic `<` on `(wins, game_balance, games_for)` — the sort
key of `Tournament.build_standings` (models.py 403-407). -/
def standingsKeyLt (a b : Nat × Int × Nat) : Bool :=
  decide (a.1 < b.1 ∨ (a.1 = b.1 ∧ (a.2.1 < b.2.1 ∨ (a.2.1 = b.2.1 ∧ a.2.2 < b.2.2))))

/-- Lexicographic `<` on `(wins, games_for, game_balance)` — the sort
key of `_collect_group_qualifiers` (views.py 977-984). -/
def qualifierKeyLt (a b : Nat × Nat × Int) : Bool :=
  decide (a.1 < b.1 ∨ (a.1 = b.1 ∧ (a.2.1 < b.2.1 ∨ (a.2.1 = b.2.1 ∧ a.2.2 < b.2.2))))

/-- Python `sorted` on strings, ascending and stable. -/
def sortStrings (l : List String) : List String :=
  sortDescBy (fun a b => strLt b a) (fun s => s) l

/- ## StandingsCalculator (`Tournament.build_standings`, models.py 350-407) -/

/-- The fresh accumulator row created by `standings.setdefault`
(models.py 376-388). -/
def initRow (team : Nat) : StandingsRow :=
  { team := team
    matchesPlayed := 0
    wins := 0
    losses := 0
    sets := 0
    points := 0
    games_for := 0
    games_against := 0 }

/-- The per-side mutation of one standings row (models.py 389-397):
bump matches and the tallies, then credit a win when this team is the
match winner and a loss otherwise (`match.winner_id == team.id` is
false when the winner is unset, because `None == id` is false). -/
def applySide (m : Match) (team sets points gf ga : Nat) (e : StandingsRow) : StandingsRow :=
  let e :=
    { e with
      matchesPlayed := e.matchesPlayed + 1
      sets := e.sets + sets
      points := e.points + points
      games_for := e.games_for + gf
      games_against := e.games_against + ga }
  if m.winner = some team then { e with wins := e.wins + 1 }
  else { e with losses := e.losses + 1 }

/-- `standings.setdefault(team.id, {...})` followed by mutating the
entry in place: apply `f` to the row stored under `team`, creating the
default row first when absent (insertion order preserved). -/
def standingsUpsert (acc : List (Nat × StandingsRow)) (team : Nat) (f : StandingsRow → StandingsRow) :
    List (Nat × StandingsRow) :=
  match acc with
  | [] => [(team, f (initRow team))]
  | (t, e) :: rest =>
    if t = team then (t, f e) :: rest else (t, e) :: standingsUpsert rest team f

/-- One iteration of the match loop of `build_standings`
(models.py 354-397): skip a match missing either team id, otherwise
fold both sides' tuples into the accumulator. -/
def applyMatch (acc : List (Nat × StandingsRow)) (m : Match) : List (Nat × StandingsRow) :=
  if m.team_one = 0 ∨ m.team_two = 0 then acc
  else
    let acc := standingsUpsert acc m.team_one
      (applySide m m.team_one m.team_one_sets_won
        (accumulatedPoints m.team_one_point_sequence)
        m.team_one_sets_won m.team_two_sets_won)
    standingsUpsert acc m.team_two
      (applySide m m.team_two m.team_two_sets_won
        (accumulatedPoints m.team_two_point_sequence)
        m.team_two_sets_won m.team_one_sets_won)

/-- `Tournament.build_standings` (models.py 350-407): accumulate every
match, compute `game_balance`, and sort descending by
`(wins, game_balance, games_for)`. -/
def buildStandings (ms : List Match) : List StandingsRow :=
  let acc := ms.foldl applyMatch []
  let ordered := acc.map (fun te =>
    { te.2 with game_balance := (te.2.games_for : Int) - (te.2.games_against : Int) })
  sortDescBy standingsKeyLt (fun r => (r.wins, r.game_balance, r.games_for)) ordered

/- ## PairingEngine (views.py 822-902) -/

/-- `_create_tournament_team` (views.py 822-846), reduced to the
`Team.objects.get_or_create` lookup key it resolves or creates:
the two players sorted by primary key (`sorted(..., key=pk)`, stable),
category `tournament.category or players[0].category` (category ids are
positive, hence truthy), and the tournament's division. -/
def createTournamentTeamKey (tCat : Option Nat) (tDiv : Division)
    (p1 p2 : ParticipantR) : TeamKey :=
  let first := if p1.pk ≤ p2.pk then p1 else p2
  let second := if p1.pk ≤ p2.pk then p2 else p1
  { player_one := first.pk
    player_two := second.pk
    category := tCat.getD first.category
    division := tDiv }

/-- `Team.save` (models.py 293-295): swap the players when both ids are
set (nonzero) and slot one holds the larger id. -/
def teamSaveCanonicalize (t : TeamKey) : TeamKey :=
  if t.player_one ≠ 0 ∧ t.player_two ≠ 0 ∧ t.player_one > t.player_two then
    { t with player_one := t.player_two, player_two := t.player_one }
  else t

/-- `Team.clean` (models.py 269-291) on a canonical key whose slot-one
player is `p` and slot-two player is `q`: distinct players, the
division's gender rule, equal player categories, and a team category
(nonzero ⇒ truthy) matching the players'. -/
def teamClean (division : Division) (teamCategory : Nat) (p q : ParticipantR) : Bool :=
  p.pk ≠ q.pk &&
  (match division with
   | Division.male => p.gender ≠ Gender.female && q.gender ≠ Gender.female
   | Division.female => p.gender ≠ Gender.male && q.gender ≠ Gender.male
   | Division.mixed =>
     (p.gender = Gender.male || q.gender = Gender.male ||
      p.gender = Gender.mixed || q.gender = Gender.mixed) &&
     (p.gender = Gender.female || q.gender = Gender.female ||
      p.gender = Gender.mixed || q.gender = Gender.mixed)) &&
  p.category = q.category &&
  !(teamCategory ≠ 0 && teamCategory ≠ p.category)

/-- Whether `_create_tournament_team` succeeds for an (unordered) pair:
it canonicalizes the pair by pk, then `Team.save` runs `full_clean`,
raising `ValidationError` exactly when `teamClean` fails (fresh team
creation; an already-existing identical team would be fetched without
validation, which no claim exercises). -/
def pairingSucceeds (tDiv : Division) (tCat : Option Nat) (p q : ParticipantR) : Bool :=
  let first := if p.pk ≤ q.pk then p else q
  let second := if p.pk ≤ q.pk then q else p
  teamClean tDiv (tCat.getD first.category) first second

/-- One `elif` chain step of the bucket partition of
`_auto_pair_mixed_participants` (views.py 876-882): route a
participant into the male/female/flexible pool by gender. -/
def splitStep (pools : List ParticipantR × List ParticipantR × List ParticipantR)
    (p : ParticipantR) : List ParticipantR × List ParticipantR × List ParticipantR :=
  match p.gender with
  | Gender.male => (p :: pools.1, pools.2.1, pools.2.2)
  | Gender.female => (pools.1, p :: pools.2.1, pools.2.2)
  | Gender.mixed => (pools.1, pools.2.1, p :: pools.2.2)

/-- The bucket partition of `_auto_pair_mixed_participants`
(views.py 873-882).  Pools are represented in *pop order* (reversed
append order), because the Python code only consumes them with
`list.pop()` from the end. -/
def splitPools (ps : List ParticipantR) :
    List ParticipantR × List ParticipantR × List ParticipantR :=
  ps.foldl splitStep ([], [], [])

/-- `while xs and ys: pairs.append((xs.pop(), ys.pop()))` over two pools
in pop order: pair heads until either pool drains, returning the pairs
in creation order and the remaining pools. -/
def popPairs2 {α β : Type} : List α → List β → List (α × β) × List α × List β
  | a :: as_, b :: bs =>
    let r := popPairs2 as_ bs
    ((a, b) :: r.1, r.2)
  | as_, bs => ([], as_, bs)

/-- `while len(pool) >= 2: pairs.append((pool.pop(), pool.pop()))` over
one pool in pop order. -/
def popSamePairs {α : Type} : List α → List (α × α) × List α
  | a :: b :: rest =>
    let r := popSamePairs rest
    ((a, b) :: r.1, r.2)
  | rest => ([], rest)

/-- The four greedy passes of `_auto_pair_mixed_participants`
(views.py 883-892) on the three pools: male↔female, male↔flexible,
flexible↔female (pairs stored as `(flex, female)`), flexible↔flexible;
returns the pair list and the length of the leftover pools. -/
def mixedPasses (malePool femalePool flexPool : List ParticipantR) :
    List (ParticipantR × ParticipantR) × Nat :=
  let s1 := popPairs2 malePool femalePool
  let s2 := popPairs2 s1.2.1 flexPool
  let s3 := popPairs2 s2.2.2 s1.2.2
  let s4 := popSamePairs s3.2.1
  (s1.1 ++ s2.1 ++ (s3.1 ++ s4.1), s2.2.1.length + s3.2.2.length + s4.2.length)

/-- The pair list and leftover count `_auto_pair_mixed_participants`
derives from its input pool. -/
def mixedPairing (participants : List ParticipantR) :
    List (ParticipantR × ParticipantR) × Nat :=
  let pools := splitPools participants
  mixedPasses pools.1 pools.2.1 pools.2.2

/-- `_auto_pair_mixed_participants` (views.py 869-902): pair the pools,
then attempt each pair, counting successes as created and
`ValidationError`s as skipped; leftover participants are added to the
skipped count. -/
def autoPairMixedParticipants (tCat : Option Nat) (participants : List ParticipantR) :
    Nat × Nat :=
  let pl := mixedPairing participants
  let counts := pl.1.foldl
    (fun cs pq =>
      if pairingSucceeds Division.mixed tCat pq.1 pq.2 then (cs.1 + 1, cs.2)
      else (cs.1, cs.2 + 1))
    (0, 0)
  (counts.1, counts.2 + pl.2)

/-- The consecutive-pair loop of `_auto_pair_tournament_participants`
(views.py 859-865): `for idx in range(0, len(available) - 1, 2)` pairs
`available[idx]` with `available[idx+1]`; a trailing odd participant is
never visited. -/
def pairConsecutiveAux (tDiv : Division) (tCat : Option Nat) :
    List ParticipantR → Nat → Nat → Nat × Nat
  | p1 :: p2 :: rest, created, skipped =>
    if pairingSucceeds tDiv tCat p1 p2 then
      pairConsecutiveAux tDiv tCat rest (created + 1) skipped
    else
      pairConsecutiveAux tDiv tCat rest created (skipped + 1)
  | _, created, skipped => (created, skipped)

/-- `_auto_pair_tournament_participants` (views.py 849-866) on an
already-shuffled eligible pool (the unseeded `random.shuffle` is not
modelled; the pool is taken as given): empty pool short-circuits, the
mixed division delegates, otherwise participants are paired
consecutively. -/
def autoPairTournamentParticipants (tDiv : Division) (tCat : Option Nat)
    (available : List ParticipantR) : Nat × Nat :=
  if available.isEmpty then (0, 0)
  else if tDiv = Division.mixed then autoPairMixedParticipants tCat available
  else pairConsecutiveAux tDiv tCat available 0 0

/- ## GroupAssigner: round-robin generation (views.py 925-956) -/

/-- `groups.setdefault(label, []).append(x)` (views.py 935 and 973):
append `x` to the list stored under `label`, creating it when absent;
key insertion order is preserved. -/
def setdefaultAppend {α : Type} (g : List (String × List α)) (label : String) (x : α) :
    List (String × List α) :=
  match g with
  | [] => [(label, [x])]
  | (l, xs) :: rest =>
    if l = label then (l, xs ++ [x]) :: rest
    else (l, xs) :: setdefaultAppend rest label x

/-- Dictionary lookup with the empty list for a missing key. -/
def assocGet {α : Type} (g : List (String × List α)) (label : String) : List α :=
  match g with
  | [] => []
  | (l, xs) :: rest => if l = label then xs else assocGet rest label

/-- The existence check guarding match creation (views.py 944-946 and
1017-1019): some match under `label` already pairs `t1` and `t2`, in
either side order. -/
def matchPairExists (ms : List Match) (label : String) (t1 t2 : Nat) : Bool :=
  ms.any (fun m =>
    m.round_name = label &&
    ((m.team_one = t1 && m.team_two = t2) || (m.team_one = t2 && m.team_two = t1)))

/-- The `Match.objects.create` of round-robin/knockout generation
(views.py 949-954 and 1022-1027): a fresh match with model defaults. -/
def newMatch (label : String) (t1 t2 : Nat) : Match :=
  { round_name := label
    team_one := t1
    team_two := t2
    winner := none
    team_one_sets_won := 0
    team_two_sets_won := 0
    team_one_point_sequence := []
    team_two_point_sequence := [] }

/-- The inner loop over `jdx` (views.py 942-955): run `team_one = t1`
against every later team, creating the match unless it already exists. -/
def rrInner (label : String) (t1 : Nat) :
    List Nat → List Match → Nat → List Match × Nat
  | [], ms, created => (ms, created)
  | t2 :: rest, ms, created =>
    if matchPairExists ms label t1 t2 then rrInner label t1 rest ms created
    else rrInner label t1 rest (ms ++ [newMatch label t1 t2]) (created + 1)

/-- The outer loop over `idx` (views.py 940-955). -/
def rrOuter (label : String) :
    List Nat → List Match → Nat → List Match × Nat
  | [], ms, created => (ms, created)
  | t1 :: rest, ms, created =>
    let r := rrInner label t1 rest ms created
    rrOuter label rest r.1 r.2

/-- One group's round-robin body (views.py 937-955), including the
`len(teams) < 2` skip. -/
def rrGroup (label : String) (teams : List Nat) (ms : List Match) (created : Nat) :
    List Match × Nat :=
  if teams.length < 2 then (ms, created) else rrOuter label teams ms created

/-- The loop over all groups (views.py 937). -/
def rrGroups : List (String × List Nat) → List Match → Nat → List Match × Nat
  | [], ms, created => (ms, created)
  | (label, teams) :: rest, ms, created =>
    let r := rrGroup label teams ms created
    rrGroups rest r.1 r.2

/-- The grouping pass of `_generate_group_round_robin_matches`
(views.py 931-935) over the ordered `(group_label, team)` entries the
query returns (label non-null; entries with a falsy team id skipped). -/
def groupEntries (entries : List (String × Nat)) : List (String × List Nat) :=
  (entries.filter (fun e => e.2 ≠ 0)).foldl
    (fun g e => setdefaultAppend g e.1 e.2) []

/-- `_generate_group_round_robin_matches` (views.py 925-956): group the
labeled entries, then create each group's missing pair matches; returns
the updated match table and the created count. -/
def generateGroupRoundRobinMatches (entries : List (String × Nat)) (ms : List Match) :
    List Match × Nat :=
  rrGroups (groupEntries entries) ms 0

/- ## QualifierSelector (views.py 959-991) -/

/-- The `entries` dictionary of `_collect_group_qualifiers`
(views.py 965): the labeled enrollment for a team, later enrollments
overwriting earlier ones as a dict comprehension keyed by team does. -/
def lookupGroupLabel (ens : List Enrollment) (team : Nat) : Option String :=
  ((ens.filter (fun e => e.group_label ≠ "")).reverse.find? (fun e => e.team = team)).map
    (fun e => e.group_label)

/-- `_collect_group_qualifiers` (views.py 959-991) with the standings
rows passed explicitly: group the rows by enrollment label, then per
label (in sorted order) sort descending by
`(wins, games_for, game_balance)` and take the clamped slot count. -/
def collectQualifiersFromRows (ens : List Enrollment) (standings : List StandingsRow)
    (default_slots small_group_slots expected_group_size : Nat) : List Nat :=
  if (ens.filter (fun e => e.group_label ≠ "")).isEmpty then []
  else
    let labeled := standings.filterMap (fun r =>
      (lookupGroupLabel ens r.team).map (fun l => (l, r)))
    let groupRows := labeled.foldl (fun g lr => setdefaultAppend g lr.1 lr.2) []
    let labels := sortStrings (groupRows.map Prod.fst)
    labels.flatMap (fun label =>
      let group_data := sortDescBy qualifierKeyLt
        (fun r => (r.wins, r.games_for, r.game_balance)) (assocGet groupRows label)
      let slots :=
        if expected_group_size ≠ 0 ∧ group_data.length < expected_group_size then
          small_group_slots
        else default_slots
      let slots := max 1 (min slots group_data.length)
      (group_data.take slots).map (fun r => r.team))

/-- Modelled from the spec's words (§4.5 `collectGroupQualifiers`):
group the standings rows by each team's group label, sort each group's
rows by `(wins, gamesFor, gameBalance)` descending, take the top
`defaultSlots` rows — `smallGroupSlots` when the group's size is below
`expectedGroupSize` — clamped to `[1, group size]`, processing groups in
label-sorted order and concatenating group by group.  Used only to
compare against the source-derived `collectQualifiersFromRows`. -/
def specCollectGroupQualifiers (ens : List Enrollment) (standings : List StandingsRow)
    (default_slots small_group_slots expected_group_size : Nat) : List Nat :=
  let labeled := standings.filterMap (fun r =>
    (lookupGroupLabel ens r.team).map (fun l => (l, r)))
  let labels := sortStrings ((labeled.map Prod.fst).foldl
    (fun seen l => if seen.contains l then seen else seen ++ [l]) [])
  labels.flatMap (fun label =>
    let g := sortDescBy qualifierKeyLt
      (fun r => (r.wins, r.games_for, r.game_balance))
      ((labeled.filter (fun lr => lr.1 = label)).map Prod.snd)
    let slots :=
      if g.length < expected_group_size then small_group_slots else default_slots
    let slots := max 1 (min slots g.length)
    (g.take slots).map (fun r => r.team))

/-- `_collect_group_qualifiers` applied to a tournament state: the
standings come from `tournament.build_standings()`. -/
def collectGroupQualifiers (st : TournamentState)
    (default_slots small_group_slots expected_group_size : Nat) : List Nat :=
  collectQualifiersFromRows st.enrollments (buildStandings st.matchRows)
    default_slots small_group_slots expected_group_size

/- ## Quick result entry (views.py 1049-1071) -/

/-- `_record_quick_result` (views.py 1049-1064): create a match with
the given set counts and `winner = team_one if sets_one > sets_two else
team_two`. -/
def recordQuickResult (round_name : String) (team_one team_two sets_one sets_two : Nat) :
    Match :=
  let winner := if sets_one > sets_two then team_one else team_two
  { round_name := round_name
    team_one := team_one
    team_two := team_two
    winner := some winner
    team_one_sets_won := sets_one
    team_two_sets_won := sets_two
    team_one_point_sequence := []
    team_two_point_sequence := [] }

/-- `_apply_game_edit` (views.py 1067-1071): overwrite the set counts
and recompute the winner with the same `>`-else rule. -/
def applyGameEdit (m : Match) (sets_one sets_two : Nat) : Match :=
  { m with
    team_one_sets_won := sets_one
    team_two_sets_won := sets_two
    winner := some (if sets_one > sets_two then m.team_one else m.team_two) }

/- ## KnockoutProgressor (views.py 994-1046 and 1075-1111) -/

/-- `_round_name_for_team_count` (views.py 994-1005). -/
def roundNameForTeamCount (n : Nat) : String :=
  if n = 2 then "Mata-mata - Final"
  else if n = 4 then "Mata-mata - Semifinais"
  else if n = 8 then "Mata-mata - Quartas de final"
  else if n = 16 then "Mata-mata - Oitavas de final"
  else if n = 32 then "Mata-mata - 16 avos de final"
  else "Mata-mata (" ++ toString n ++ " duplas)"

/-- The pair-creation loop of `_create_knockout_round`
(views.py 1014-1028): teams paired by consecutive index; a pair's match
is created unless it already exists (in either side order) under the
round label; the existence check sees matches created earlier in the
same call. -/
def createRoundMatches (round_name : String) :
    List Nat → List Match → Nat → List Match × Nat
  | t1 :: t2 :: rest, ms, created =>
    if matchPairExists ms round_name t1 t2 then
      createRoundMatches round_name rest ms created
    else
      createRoundMatches round_name rest (ms ++ [newMatch round_name t1 t2]) (created + 1)
  | _, ms, created => (ms, created)

/-- The enrollment stamping loop of `_create_knockout_round`
(views.py 1029-1045): every team passed in gets `stage = knockout` and a
1-based seed equal to its position; a team without an enrollment gets a
fresh one. -/
def seedEnrollments (ens : List Enrollment) : List Nat → Nat → List Enrollment
  | [], _ => ens
  | team :: rest, seed =>
    let ens' :=
      if ens.any (fun e => e.team = team) then
        ens.map (fun e =>
          if e.team = team then { e with stage := Stage.knockout, seed := some seed }
          else e)
      else
        ens ++ [{ team := team, group_label := "", stage := Stage.knockout, seed := some seed }]
    seedEnrollments ens' rest (seed + 1)

/-- `_create_knockout_round` (views.py 1008-1046): refuse team counts
below 2 or odd, otherwise create the round's missing matches and stamp
the enrollments. -/
def createKnockoutRound (st : TournamentState) (teams : List Nat) :
    TournamentState × Nat :=
  let team_count := teams.length
  if team_count < 2 ∨ team_count % 2 ≠ 0 then (st, 0)
  else
    let r := createRoundMatches (roundNameForTeamCount team_count) teams st.matchRows 0
    ({ matchRows := r.1, enrollments := seedEnrollments st.enrollments teams 1 }, r.2)

/-- The blocking messages `_progress_knockout` can return, one per
`return` site (views.py 1089-1111), named after the spec's error
taxonomy (§7). -/
inductive KnockoutMessage where
  /-- "Precisamos de ao menos duas duplas classificadas a partir dos grupos." -/
  | insufficientQualifiers
  /-- "A quantidade de duplas classificadas precisa ser uma potência de 2 ..." -/
  | notPowerOfTwo
  /-- "Quantidade de duplas classificadas é ímpar; ajuste os grupos." -/
  | oddQualifierCount
  /-- "As partidas da fase eliminatória já existem." -/
  | knockoutAlreadyExists
  /-- "Registre todos os vencedores da fase atual antes de avançar." -/
  | roundIncomplete
  /-- "Precisamos de pelo menos duas duplas classificadas para a próxima fase." -/
  | insufficientWinners
  /-- "Número de vencedores é ímpar; aguarde mais resultados." -/
  | oddWinnerCount
  /-- "Próxima fase já está criada." -/
  | nextRoundExists
deriving DecidableEq, Repr

/-- `_progress_knockout` (views.py 1075-1111), returning the updated
state alongside the `(created, message)` pair the view returns.  The
latest knockout round (`order_by("-created_at").first()`) is the last
knockout match in insertion order. -/
def progressKnockout (st : TournamentState)
    (qualifiers_per_group small_group_qualifiers expected_group_size : Nat) :
    TournamentState × Nat × Option KnockoutMessage :=
  let knockoutMatches := st.matchRows.filter (fun m => m.round_name.startsWith "Mata-mata")
  if knockoutMatches.isEmpty then
    let qualifiers := collectGroupQualifiers st qualifiers_per_group
      small_group_qualifiers expected_group_size
    if qualifiers.length < 2 then
      (st, 0, some KnockoutMessage.insufficientQualifiers)
    else if qualifiers.length &&& (qualifiers.length - 1) ≠ 0 then
      (st, 0, some KnockoutMessage.notPowerOfTwo)
    else if qualifiers.length % 2 ≠ 0 then
      (st, 0, some KnockoutMessage.oddQualifierCount)
    else
      let r := createKnockoutRound st qualifiers
      (r.1, r.2, if r.2 ≠ 0 then none else some KnockoutMessage.knockoutAlreadyExists)
  else
    match knockoutMatches.getLast? with
    | none => (st, 0, none)
    | some latest =>
      -- `if not latest_round` also catches an empty round name string.
      if latest.round_name = "" then (st, 0, none)
      else
        let current := knockoutMatches.filter (fun m => m.round_name = latest.round_name)
        if current.any (fun m => m.winner.isNone) then
          (st, 0, some KnockoutMessage.roundIncomplete)
        else
          let winners := current.filterMap (fun m => m.winner)
          if winners.length < 2 then
            (st, 0, some KnockoutMessage.insufficientWinners)
          else if winners.length % 2 ≠ 0 then
            (st, 0, some KnockoutMessage.oddWinnerCount)
          else
            let r := createKnockoutRound st winners
            if r.2 ≠ 0 then (r.1, r.2, none)
            else (r.1, 0, some KnockoutMessage.nextRoundExists)

/- ## Concrete fixtures used by examples and witnesses -/

/-- The spec's set-driven-winner example: set scores 6-4, 4-6 and the
10-8 tie-break set. -/
def setDrivenExampleScores : List SetScoreR :=
  [{ set_number := 1, team_one_games := 6, team_two_games := 4,
     tie_break_played := false, team_one_tie_break_points := none,
     team_two_tie_break_points := none },
   { set_number := 2, team_one_games := 4, team_two_games := 6,
     tie_break_played := false, team_one_tie_break_points := none,
     team_two_tie_break_points := none },
   { set_number := 3, team_one_games := 10, team_two_games := 8,
     tie_break_played := true, team_one_tie_break_points := some 10,
     team_two_tie_break_points := some 8 }]

/- ## Claim theorems -/

/-- C4: For every match and set-score list, `updateTotals` sets each
side's sets-won counter to the number of sets in which that side's
games strictly exceed the other side's, and sets the winner to the side
with the larger sets-won count — none when the counts are equal; in
particular set scores (6-4, 4-6, 10-8) yield `team_one_sets_won = 2`,
`team_two_sets_won = 1` and `winner = team_one`. -/
theorem updateTotals_counts_and_winner (m : Match) (scores : List SetScoreR) :
    (updateTotals m scores).team_one_sets_won
        = scores.countP (fun s => s.team_one_games > s.team_two_games) ∧
    (updateTotals m scores).team_two_sets_won
        = scores.countP (fun s => s.team_two_games > s.team_one_games) ∧
    (updateTotals m scores).winner
        = (if scores.countP (fun s => s.team_one_games > s.team_two_games)
              > scores.countP (fun s => s.team_two_games > s.team_one_games) then
             some m.team_one
           else if scores.countP (fun s => s.team_two_games > s.team_one_games)
              > scores.countP (fun s => s.team_one_games > s.team_two_games) then
             some m.team_two
           else none) ∧
    (updateTotals m setDrivenExampleScores).team_one_sets_won = 2 ∧
    (updateTotals m setDrivenExampleScores).team_two_sets_won = 1 ∧
    (updateTotals m setDrivenExampleScores).winner = some m.team_one := by
  refine ⟨?_, ?_, ?_, rfl, rfl, rfl⟩
  · simp [updateTotals, List.countP_eq_length_filter]
  · simp [updateTotals, List.countP_eq_length_filter]
  · simp only [updateTotals, List.countP_eq_length_filter]
    split_ifs <;> first | rfl | omega

/-- C9: In quick-result recording and match-result editing the stored
winner is `team_one` exactly when its set count is strictly greater,
and `team_two` in every other case — on equal counts the winner is
`team_two`, unlike `update_totals`, which leaves the winner empty when
the two set counts are equal. -/
theorem quickResult_winner_rule (rn : String) (t1 t2 s1 s2 : Nat) (m : Match) :
    (recordQuickResult rn t1 t2 s1 s2).winner
        = some (if s1 > s2 then t1 else t2) ∧
    (applyGameEdit m s1 s2).winner
        = some (if s1 > s2 then m.team_one else m.team_two) ∧
    (s1 = s2 →
      (recordQuickResult rn t1 t2 s1 s2).winner = some t2 ∧
      (applyGameEdit m s1 s2).winner = some m.team_two) ∧
    (∀ scores : List SetScoreR,
      (scores.filter (fun s => s.team_one_games > s.team_two_games)).length
        = (scores.filter (fun s => s.team_two_games > s.team_one_games)).length →
      (updateTotals m scores).winner = none) := by
  refine ⟨rfl, rfl, ?_, ?_⟩
  · intro h
    subst h
    simp [recordQuickResult, applyGameEdit]
  · intro scores h
    simp [updateTotals, h]

/-- C9 witness: equal set counts (2-2) store `team_two` as winner in
both operations, while `updateTotals` on a 1-1 set split stores no
winner. -/
theorem quickResult_winner_rule_witness :
    (recordQuickResult "Fase de grupos" 7 8 2 2).winner = some 8 ∧
    (applyGameEdit (newMatch "Grupo A" 7 8) 2 2).winner = some 8 ∧
    (updateTotals (newMatch "Grupo A" 7 8)
      [{ set_number := 1, team_one_games := 6, team_two_games := 4,
         tie_break_played := false, team_one_tie_break_points := none,
         team_two_tie_break_points := none },
       { set_number := 2, team_one_games := 3, team_two_games := 6,
         tie_break_played := false, team_one_tie_break_points := none,
         team_two_tie_break_points := none }]).winner = none := by
  refine ⟨?_, ?_, ?_⟩
  · exact ((quickResult_winner_rule "Fase de grupos" 7 8 2 2 (newMatch "Grupo A" 7 8)).2.2.1 rfl).1
  · exact ((quickResult_winner_rule "Fase de grupos" 7 8 2 2 (newMatch "Grupo A" 7 8)).2.2.1 rfl).2
  · exact (quickResult_winner_rule "Fase de grupos" 7 8 2 2 (newMatch "Grupo A" 7 8)).2.2.2 _ (by decide)

/-- C6: Pairing participant A with participant B resolves or creates
the same `Team` lookup key as pairing (B, A): the pair is canonicalized
with the lower-pk participant in slot one, and `Team.save`'s own swap
leaves the already-canonical key unchanged. -/
theorem createTournamentTeamKey_symm (tCat : Option Nat) (tDiv : Division)
    (p1 p2 : ParticipantR) (hne : p1.pk ≠ p2.pk) :
    createTournamentTeamKey tCat tDiv p1 p2 = createTournamentTeamKey tCat tDiv p2 p1 ∧
    (createTournamentTeamKey tCat tDiv p1 p2).player_one = min p1.pk p2.pk ∧
    (createTournamentTeamKey tCat tDiv p1 p2).player_two = max p1.pk p2.pk ∧
    (p1.pk ≠ 0 → p2.pk ≠ 0 →
      teamSaveCanonicalize (createTournamentTeamKey tCat tDiv p1 p2)
        = createTournamentTeamKey tCat tDiv p1 p2) := by
  by_cases h : p1.pk ≤ p2.pk
  · have h' : ¬ p2.pk ≤ p1.pk := by omega
    refine ⟨?_, ?_, ?_, ?_⟩
    · simp [createTournamentTeamKey, h, h']
    · simp [createTournamentTeamKey, h]
    · simp [createTournamentTeamKey, h]
    · intro h1 h2
      simp only [createTournamentTeamKey, if_pos h]
      rw [teamSaveCanonicalize, if_neg]
      simp only [not_and]
      intro _ _
      omega
  · have h' : p2.pk ≤ p1.pk := by omega
    refine ⟨?_, ?_, ?_, ?_⟩
    · simp [createTournamentTeamKey, h, h']
    · simp [createTournamentTeamKey, h]
      omega
    · simp [createTournamentTeamKey, h]
      omega
    · intro h1 h2
      simp only [createTournamentTeamKey, if_neg h]
      rw [teamSaveCanonicalize, if_neg]
      simp only [not_and]
      intro _ _
      omega

/-- C6 witness: two concrete participants with pks 2 and 1 pair to the
same canonical key in either order, and `Team.save` keeps it as is. -/
theorem createTournamentTeamKey_symm_witness :
    createTournamentTeamKey (some 1) Division.mixed
        { pk := 2, gender := Gender.male, category := 1 }
        { pk := 1, gender := Gender.female, category := 1 }
      = createTournamentTeamKey (some 1) Division.mixed
        { pk := 1, gender := Gender.female, category := 1 }
        { pk := 2, gender := Gender.male, category := 1 } ∧
    teamSaveCanonicalize (createTournamentTeamKey (some 1) Division.mixed
        { pk := 2, gender := Gender.male, category := 1 }
        { pk := 1, gender := Gender.female, category := 1 })
      = createTournamentTeamKey (some 1) Division.mixed
        { pk := 2, gender := Gender.male, category := 1 }
        { pk := 1, gender := Gender.female, category := 1 } := by
  refine ⟨?_, ?_⟩
  · exact (createTournamentTeamKey_symm (some 1) Division.mixed
      { pk := 2, gender := Gender.male, category := 1 }
      { pk := 1, gender := Gender.female, category := 1 } (by decide)).1
  · exact (createTournamentTeamKey_symm (some 1) Division.mixed
      { pk := 2, gender := Gender.male, category := 1 }
      { pk := 1, gender := Gender.female, category := 1 } (by decide)).2.2.2
      (by decide) (by decide)

/-- Unfolding step: the spec-worded normalization satisfies the same
head recursion as the source-derived one. -/
theorem specNormalizePointSequence_cons (v : String) (rest : List String) :
    specNormalizePointSequence (v :: rest)
      = (if pyUpper (pyStrip v) = "" then specNormalizePointSequence rest
         else if allowedPointTokens.contains (pyUpper (pyStrip v)) then
           match specNormalizePointSequence rest with
           | Except.ok l => Except.ok (pyUpper (pyStrip v) :: l)
           | Except.error e => Except.error e
         else Except.error PointError.invalidPointToken) := by
  by_cases hb : pyUpper (pyStrip v) = ""
  · have hfv : blankOrAllowed v = true := by simp [blankOrAllowed, hb]
    simp [specNormalizePointSequence, List.all_cons, hfv, hb]
  · by_cases ha : allowedPointTokens.contains (pyUpper (pyStrip v)) = true
    · have ha' : pyUpper (pyStrip v) ∈ allowedPointTokens := by simpa using ha
      have hfv : blankOrAllowed v = true := by
        simp only [blankOrAllowed, Bool.or_eq_true]
        exact Or.inr ha
      by_cases hall : rest.all blankOrAllowed = true
      · simp [specNormalizePointSequence, List.all_cons, hfv, hb, ha', hall]
      · simp [specNormalizePointSequence, List.all_cons, hfv, hb, ha', hall]
    · have ha' : pyUpper (pyStrip v) ∉ allowedPointTokens := by simpa using ha
      have hfv : blankOrAllowed v = false := by
        simp [blankOrAllowed, hb, ha']
      simp [specNormalizePointSequence, List.all_cons, hfv, hb, ha']

/-- The source-derived normalization agrees with the spec-worded one on
every token list. -/
theorem normalizePointSequence_eq_spec (ts : List String) :
    normalizePointSequence ts = specNormalizePointSequence ts := by
  induction ts with
  | nil => rfl
  | cons v rest ih =>
    rw [specNormalizePointSequence_cons, ← ih]
    rfl

/-- C8: Point-sequence normalization upper-cases each token, drops
blank tokens, accepts exactly 15/30/40/45/GAME case-insensitively and
fails with `InvalidPointToken` otherwise (stated as agreement with the
spec-worded `specNormalizePointSequence`); point accumulation maps
15→15, 30→30, 40→40, 45→45, GAME→60 and unknown tokens to 0; the
sequence ["15","30","game"] normalizes to ["15","30","GAME"] and
accumulates to 105. -/
theorem pointSequence_normalization_and_accumulation (ts : List String) :
    normalizePointSequence ts = specNormalizePointSequence ts ∧
    normalizePointSequence ["15", "30", "game"] = Except.ok ["15", "30", "GAME"] ∧
    accumulatedPoints ["15", "30", "GAME"] = 105 ∧
    pointValue "15" = 15 ∧ pointValue "30" = 30 ∧ pointValue "40" = 40 ∧
    pointValue "45" = 45 ∧ pointValue "GAME" = 60 ∧
    (∀ s : String, ¬ s ∈ allowedPointTokens → pointValue s = 0) := by
  refine ⟨normalizePointSequence_eq_spec ts, by rfl, by rfl, rfl, rfl, rfl, rfl, rfl, ?_⟩
  intro s hs
  simp [allowedPointTokens] at hs
  simp [pointValue, hs.1, hs.2.1, hs.2.2.1, hs.2.2.2.1, hs.2.2.2.2]

/-- C8 witness: a token outside the allowed set maps to 0 points. -/
theorem pointSequence_normalization_witness : pointValue "AD" = 0 :=
  (pointSequence_normalization_and_accumulation []).2.2.2.2.2.2.2.2 "AD" (by decide)

/-- A group match between teams 1 and 2 that ended 1-1 in sets with no
winner registered. -/
def noWinnerMatch : Match :=
  { round_name := "Grupo A"
    team_one := 1
    team_two := 2
    winner := none
    team_one_sets_won := 1
    team_two_sets_won := 1
    team_one_point_sequence := []
    team_two_point_sequence := [] }

/-- C2 counterexample: a match with no winner does NOT leave both
teams' loss counters untouched — `build_standings` on a single
winnerless match produces losses of 1 for both teams, because
`match.winner_id == team.id` is false for an unset winner and the
`else` branch then credits a loss. -/
theorem standings_no_winner_counterexample :
    noWinnerMatch.winner = none ∧
    (buildStandings [noWinnerMatch]).map (fun r => r.losses) = [1, 1] ∧
    ¬ ((buildStandings [noWinnerMatch]).all (fun r => r.losses = 0) = true) := by
  refine ⟨rfl, by decide, by decide⟩

/-- C2 (amended): every match whose winner is unset contributes to both
participating teams' matches-played count and game tallies and to
neither team's wins, but it adds one loss to each of the two teams. -/
theorem standings_no_winner_amended (m : Match) (h : m.winner = none) :
    (∀ (team sets points gf ga : Nat) (e : StandingsRow),
      (applySide m team sets points gf ga e).matchesPlayed = e.matchesPlayed + 1 ∧
      (applySide m team sets points gf ga e).sets = e.sets + sets ∧
      (applySide m team sets points gf ga e).points = e.points + points ∧
      (applySide m team sets points gf ga e).games_for = e.games_for + gf ∧
      (applySide m team sets points gf ga e).games_against = e.games_against + ga ∧
      (applySide m team sets points gf ga e).wins = e.wins ∧
      (applySide m team sets points gf ga e).losses = e.losses + 1) ∧
    (m.team_one ≠ 0 → m.team_two ≠ 0 → m.team_one ≠ m.team_two →
      applyMatch [] m =
        [(m.team_one,
          { team := m.team_one, matchesPlayed := 1, wins := 0, losses := 1,
            sets := m.team_one_sets_won,
            points := accumulatedPoints m.team_one_point_sequence,
            games_for := m.team_one_sets_won,
            games_against := m.team_two_sets_won }),
         (m.team_two,
          { team := m.team_two, matchesPlayed := 1, wins := 0, losses := 1,
            sets := m.team_two_sets_won,
            points := accumulatedPoints m.team_two_point_sequence,
            games_for := m.team_two_sets_won,
            games_against := m.team_one_sets_won })]) := by
  constructor
  · intro team sets points gf ga e
    simp [applySide, h]
  · intro h1 h2 hne
    simp [applyMatch, h1, h2, standingsUpsert, hne, applySide, h, initRow]

/-- C2 witness: the amended behavior evaluated on the concrete
winnerless match. -/
theorem standings_no_winner_amended_witness :
    (applySide noWinnerMatch 1 1 0 1 1 (initRow 1)).losses = 1 ∧
    (applySide noWinnerMatch 1 1 0 1 1 (initRow 1)).wins = 0 ∧
    applyMatch [] noWinnerMatch =
      [(1, { team := 1, matchesPlayed := 1, wins := 0, losses := 1, sets := 1,
             points := 0, games_for := 1, games_against := 1 }),
       (2, { team := 2, matchesPlayed := 1, wins := 0, losses := 1, sets := 1,
             points := 0, games_for := 1, games_against := 1 })] := by
  refine ⟨?_, ?_, ?_⟩
  · exact ((standings_no_winner_amended noWinnerMatch rfl).1 1 1 0 1 1 (initRow 1)).2.2.2.2.2.2
  · exact ((standings_no_winner_amended noWinnerMatch rfl).1 1 1 0 1 1 (initRow 1)).2.2.2.2.2.1
  · exact (standings_no_winner_amended noWinnerMatch rfl).2 (by decide) (by decide) (by decide)

/-- Summing created and skipped over the consecutive-pair loop always
accounts for exactly one outcome per visited pair. -/
theorem pairConsecutiveAux_sum (tDiv : Division) (tCat : Option Nat) :
    ∀ (pool : List ParticipantR) (c s : Nat),
      (pairConsecutiveAux tDiv tCat pool c s).1
        + (pairConsecutiveAux tDiv tCat pool c s).2 = c + s + pool.length / 2
  | [], c, s => by simp [pairConsecutiveAux]
  | [p], c, s => by simp [pairConsecutiveAux]
  | p1 :: p2 :: rest, c, s => by
    have ih1 := pairConsecutiveAux_sum tDiv tCat rest (c + 1) s
    have ih2 := pairConsecutiveAux_sum tDiv tCat rest c (s + 1)
    by_cases hok : pairingSucceeds tDiv tCat p1 p2 = true
    · simp only [pairConsecutiveAux, hok, if_pos]
      rw [ih1]
      simp only [List.length_cons]
      omega
    · simp only [pairConsecutiveAux, hok]
      rw [if_neg (by simp [hok]), ih2]
      simp only [List.length_cons]
      omega

/-- Every consecutive pair of the pool passes team validation. -/
def consecutivePairsValid (tDiv : Division) (tCat : Option Nat) :
    List ParticipantR → Bool
  | p1 :: p2 :: rest =>
    pairingSucceeds tDiv tCat p1 p2 && consecutivePairsValid tDiv tCat rest
  | _ => true

/-- When every consecutive pair validates, the loop creates one team
per pair and skips none. -/
theorem pairConsecutiveAux_all_valid (tDiv : Division) (tCat : Option Nat) :
    ∀ (pool : List ParticipantR) (c s : Nat),
      consecutivePairsValid tDiv tCat pool = true →
      pairConsecutiveAux tDiv tCat pool c s = (c + pool.length / 2, s)
  | [], c, s, _ => by simp [pairConsecutiveAux]
  | [p], c, s, _ => by simp [pairConsecutiveAux]
  | p1 :: p2 :: rest, c, s, h => by
    simp only [consecutivePairsValid, Bool.and_eq_true] at h
    have ih := pairConsecutiveAux_all_valid tDiv tCat rest (c + 1) s h.2
    simp only [pairConsecutiveAux, h.1, if_pos]
    rw [ih]
    simp only [List.length_cons, Prod.mk.injEq]
    refine ⟨by omega, by simp⟩

/-- C10: For a non-mixed division, auto-pairing pairs the pool
consecutively: created plus skipped always equals `⌊n/2⌋` (the trailing
odd participant is reflected in neither count), and when every
consecutive pair validates the result is `(⌊n/2⌋, 0)`. -/
theorem autoPair_single_gender (tDiv : Division) (tCat : Option Nat)
    (pool : List ParticipantR) (hdiv : tDiv ≠ Division.mixed) :
    ((autoPairTournamentParticipants tDiv tCat pool).1
      + (autoPairTournamentParticipants tDiv tCat pool).2 = pool.length / 2) ∧
    (consecutivePairsValid tDiv tCat pool = true →
      autoPairTournamentParticipants tDiv tCat pool = (pool.length / 2, 0)) := by
  cases pool with
  | nil => simp [autoPairTournamentParticipants]
  | cons p ps =>
    constructor
    · simp only [autoPairTournamentParticipants, List.isEmpty_cons, if_neg, hdiv,
        Bool.false_eq_true, if_false]
      rw [pairConsecutiveAux_sum]
      omega
    · intro hv
      simp only [autoPairTournamentParticipants, List.isEmpty_cons, Bool.false_eq_true,
        if_false, hdiv]
      rw [pairConsecutiveAux_all_valid tDiv tCat (p :: ps) 0 0 hv]
      simp

/-- Three male participants of the same category: a valid odd pool for
the male division. -/
def oddMalePool : List ParticipantR :=
  [{ pk := 1, gender := Gender.male, category := 1 },
   { pk := 2, gender := Gender.male, category := 1 },
   { pk := 3, gender := Gender.male, category := 1 }]

/-- C10 witness: the all-valid odd pool of three males yields one
created team and zero skips. -/
theorem autoPair_single_gender_witness :
    autoPairTournamentParticipants Division.male none oddMalePool = (1, 0) :=
  (autoPair_single_gender Division.male none oddMalePool (by decide)).2 (by decide)

/-- `popPairs2` conserves both pools: the pairs plus the remainder
account for every element of each input pool. -/
theorem popPairs2_conservation {α β : Type} :
    ∀ (xs : List α) (ys : List β),
      (popPairs2 xs ys).1.length + (popPairs2 xs ys).2.1.length = xs.length ∧
      (popPairs2 xs ys).1.length + (popPairs2 xs ys).2.2.length = ys.length
  | [], ys => by simp [popPairs2]
  | x :: xs, [] => by simp [popPairs2]
  | x :: xs, y :: ys => by
    have ih := popPairs2_conservation xs ys
    simp only [popPairs2, List.length_cons]
    omega

/-- `popSamePairs` conserves the pool. -/
theorem popSamePairs_conservation {α : Type} :
    ∀ xs : List α,
      2 * (popSamePairs xs).1.length + (popSamePairs xs).2.length = xs.length
  | [] => by simp [popSamePairs]
  | [x] => by simp [popSamePairs]
  | x :: y :: rest => by
    have ih := popSamePairs_conservation rest
    simp only [popSamePairs, List.length_cons]
    omega

/-- The bucket partition conserves the participant pool. -/
theorem splitPools_foldl_conservation :
    ∀ (ps : List ParticipantR)
      (acc : List ParticipantR × List ParticipantR × List ParticipantR),
      (ps.foldl splitStep acc).1.length + (ps.foldl splitStep acc).2.1.length
          + (ps.foldl splitStep acc).2.2.length
        = acc.1.length + acc.2.1.length + acc.2.2.length + ps.length
  | [], acc => by simp
  | p :: ps, acc => by
    have ih := splitPools_foldl_conservation ps (splitStep acc p)
    rw [List.foldl_cons, ih]
    cases hg : p.gender <;> simp [splitStep, hg] <;> omega

/-- Every participant ends up in exactly one bucket. -/
theorem splitPools_conservation (ps : List ParticipantR) :
    (splitPools ps).1.length + (splitPools ps).2.1.length
        + (splitPools ps).2.2.length = ps.length := by
  have h := splitPools_foldl_conservation ps ([], [], [])
  simpa [splitPools] using h

/-- The four greedy passes account for every pooled participant: twice
the pair count plus the leftover count equals the pools' total size. -/
theorem mixedPasses_conservation (mp fp xp : List ParticipantR) :
    2 * (mixedPasses mp fp xp).1.length + (mixedPasses mp fp xp).2
      = mp.length + fp.length + xp.length := by
  obtain ⟨h1a, h1b⟩ := popPairs2_conservation mp fp
  obtain ⟨h2a, h2b⟩ := popPairs2_conservation (popPairs2 mp fp).2.1 xp
  obtain ⟨h3a, h3b⟩ := popPairs2_conservation
    (popPairs2 (popPairs2 mp fp).2.1 xp).2.2 (popPairs2 mp fp).2.2
  have h4 := popSamePairs_conservation
    (popPairs2 (popPairs2 (popPairs2 mp fp).2.1 xp).2.2 (popPairs2 mp fp).2.2).2.1
  simp only [mixedPasses, List.length_append]
  omega

/-- Mixed pairing accounts for every participant in the pool: each is
either inside one produced pair or counted in the leftover. -/
theorem mixedPairing_conservation (ps : List ParticipantR) :
    2 * (mixedPairing ps).1.length + (mixedPairing ps).2 = ps.length := by
  have h := mixedPasses_conservation (splitPools ps).1 (splitPools ps).2.1
    (splitPools ps).2.2
  have h0 := splitPools_conservation ps
  simp only [mixedPairing]
  omega

/-- The created/skipped counting fold creates one team per pair when
every pair passes validation. -/
theorem mixedCountFold_all_valid (tCat : Option Nat) :
    ∀ (l : List (ParticipantR × ParticipantR)) (c s : Nat),
      l.all (fun pq => pairingSucceeds Division.mixed tCat pq.1 pq.2) = true →
      l.foldl (fun cs pq =>
          if pairingSucceeds Division.mixed tCat pq.1 pq.2 then (cs.1 + 1, cs.2)
          else (cs.1, cs.2 + 1)) (c, s)
        = (c + l.length, s)
  | [], c, s, _ => by simp
  | pq :: l, c, s, h => by
    simp only [List.all_cons, Bool.and_eq_true] at h
    rw [List.foldl_cons]
    simp only [h.1, if_pos]
    rw [mixedCountFold_all_valid tCat l (c + 1) s h.2]
    simp only [List.length_cons, Prod.mk.injEq]
    refine ⟨by omega, by simp⟩

/-- The spec's mixed auto-pair example pool: three males, one female
and two flexible participants, all in the same category. -/
def mixedExamplePool : List ParticipantR :=
  [{ pk := 1, gender := Gender.male, category := 1 },
   { pk := 2, gender := Gender.male, category := 1 },
   { pk := 3, gender := Gender.male, category := 1 },
   { pk := 4, gender := Gender.female, category := 1 },
   { pk := 5, gender := Gender.mixed, category := 1 },
   { pk := 6, gender := Gender.mixed, category := 1 }]

/-- C7 counterexample: the pool of 3 males, 1 female and 2 flexible
participants (6 people) pairs out completely — one male↔female pair and
two male↔flexible pairs — so the operation returns created 3 and
skipped 0, not skipped 1 as claimed. -/
theorem autoPairMixed_example_counterexample :
    autoPairMixedParticipants (some 1) mixedExamplePool = (3, 0) ∧
    autoPairMixedParticipants (some 1) mixedExamplePool ≠ (3, 1) := by
  exact ⟨by decide, by decide⟩

/-- C7 (amended): mixed-division auto-pairing partitions the pool into
male/female/flexible buckets and pairs greedily male↔female, then
male↔flexible, then flexible↔female, then flexible↔flexible; every
participant is either in a produced pair or counted as leftover, and
when every produced pair validates the result is (pairs, leftover);
the example pool of 3 males + 1 female + 2 flexible yields
createdCount 3 and skippedCount 0 (it pairs out completely). -/
theorem autoPairMixed_greedy (tCat : Option Nat) (pool : List ParticipantR) :
    2 * (mixedPairing pool).1.length + (mixedPairing pool).2 = pool.length ∧
    ((mixedPairing pool).1.all
        (fun pq => pairingSucceeds Division.mixed tCat pq.1 pq.2) = true →
      autoPairMixedParticipants tCat pool
        = ((mixedPairing pool).1.length, (mixedPairing pool).2)) ∧
    autoPairMixedParticipants (some 1) mixedExamplePool = (3, 0) := by
  refine ⟨mixedPairing_conservation pool, ?_, by decide⟩
  intro h
  simp only [autoPairMixedParticipants]
  rw [mixedCountFold_all_valid tCat _ 0 0 h]
  simp

/-- C7 witness: the amended behavior instantiated on the example pool,
whose three produced pairs all validate. -/
theorem autoPairMixed_greedy_witness :
    autoPairMixedParticipants (some 1) mixedExamplePool
      = ((mixedPairing mixedExamplePool).1.length, (mixedPairing mixedExamplePool).2) :=
  (autoPairMixed_greedy (some 1) mixedExamplePool).2.1 (by decide)

/- ## Round-robin idempotence lemmas -/

/-- The ordered pairs `(teams[i], teams[j])` with `i < j` — exactly the
pairs the nested loops of views.py 940-943 visit. -/
def consecutivePairs : List Nat → List (Nat × Nat)
  | [] => []
  | x :: rest => rest.map (fun y => (x, y)) ++ consecutivePairs rest

/-- An existing pair match stays found after appending matches. -/
theorem matchPairExists_append (ms extra : List Match) (lab : String) (a b : Nat)
    (h : matchPairExists ms lab a b = true) :
    matchPairExists (ms ++ extra) lab a b = true := by
  simp only [matchPairExists, List.any_append, Bool.or_eq_true]
  exact Or.inl h

/-- `rrInner` only appends to the match table. -/
theorem rrInner_append (label : String) (t1 : Nat) :
    ∀ (rest : List Nat) (ms : List Match) (created : Nat),
      ∃ extra, (rrInner label t1 rest ms created).1 = ms ++ extra
  | [], ms, created => ⟨[], by simp [rrInner]⟩
  | t2 :: rest, ms, created => by
    by_cases h : matchPairExists ms label t1 t2 = true
    · obtain ⟨extra, hex⟩ := rrInner_append label t1 rest ms created
      exact ⟨extra, by simp only [rrInner, h, if_pos]; exact hex⟩
    · obtain ⟨extra, hex⟩ :=
        rrInner_append label t1 rest (ms ++ [newMatch label t1 t2]) (created + 1)
      refine ⟨[newMatch label t1 t2] ++ extra, ?_⟩
      simp only [rrInner, h]
      rw [if_neg (by simp [h]), hex, List.append_assoc]

/-- Matches present before `rrInner` are still found afterwards. -/
theorem rrInner_mono (label : String) (t1 : Nat) (rest : List Nat) (ms : List Match)
    (created : Nat) (lab : String) (a b : Nat)
    (h : matchPairExists ms lab a b = true) :
    matchPairExists (rrInner label t1 rest ms created).1 lab a b = true := by
  obtain ⟨extra, hex⟩ := rrInner_append label t1 rest ms created
  rw [hex]
  exact matchPairExists_append ms extra lab a b h

/-- `rrOuter` only appends to the match table. -/
theorem rrOuter_append (label : String) :
    ∀ (teams : List Nat) (ms : List Match) (created : Nat),
      ∃ extra, (rrOuter label teams ms created).1 = ms ++ extra
  | [], ms, created => ⟨[], by simp [rrOuter]⟩
  | t1 :: rest, ms, created => by
    obtain ⟨e1, h1⟩ := rrInner_append label t1 rest ms created
    obtain ⟨e2, h2⟩ := rrOuter_append label rest (rrInner label t1 rest ms created).1
      (rrInner label t1 rest ms created).2
    refine ⟨e1 ++ e2, ?_⟩
    simp only [rrOuter]
    rw [h2, h1, List.append_assoc]

/-- Matches present before `rrOuter` are still found afterwards. -/
theorem rrOuter_mono (label : String) (teams : List Nat) (ms : List Match)
    (created : Nat) (lab : String) (a b : Nat)
    (h : matchPairExists ms lab a b = true) :
    matchPairExists (rrOuter label teams ms created).1 lab a b = true := by
  obtain ⟨extra, hex⟩ := rrOuter_append label teams ms created
  rw [hex]
  exact matchPairExists_append ms extra lab a b h

/-- After `rrInner`, every visited pair `(t1, t2)` has a match. -/
theorem rrInner_post (label : String) (t1 : Nat) :
    ∀ (rest : List Nat) (ms : List Match) (created : Nat) (t2 : Nat),
      t2 ∈ rest →
      matchPairExists (rrInner label t1 rest ms created).1 label t1 t2 = true
  | [], _, _, t2, h => absurd h (List.not_mem_nil t2)
  | u :: rest, ms, created, t2, h => by
    by_cases hex : matchPairExists ms label t1 u = true
    · rcases List.mem_cons.mp h with rfl | hmem
      · simp only [rrInner, hex, if_pos]
        exact rrInner_mono label t1 rest ms created label t1 t2 hex
      · simp only [rrInner, hex, if_pos]
        exact rrInner_post label t1 rest ms created t2 hmem
    · rcases List.mem_cons.mp h with rfl | hmem
      · simp only [rrInner, hex]
        rw [if_neg (by simp [hex])]
        apply rrInner_mono
        simp [matchPairExists, newMatch]
      · simp only [rrInner, hex]
        rw [if_neg (by simp [hex])]
        exact rrInner_post label t1 rest (ms ++ [newMatch label t1 u]) (created + 1) t2 hmem

/-- After `rrOuter`, every index pair of the team list has a match. -/
theorem rrOuter_post (label : String) :
    ∀ (teams : List Nat) (ms : List Match) (created : Nat) (p : Nat × Nat),
      p ∈ consecutivePairs teams →
      matchPairExists (rrOuter label teams ms created).1 label p.1 p.2 = true
  | [], _, _, p, h => by simp [consecutivePairs] at h
  | t1 :: rest, ms, created, p, h => by
    simp only [consecutivePairs, List.mem_append, List.mem_map] at h
    rcases h with ⟨y, hy, rfl⟩ | hmem
    · simp only [rrOuter]
      exact rrOuter_mono label rest _ _ label t1 y
        (rrInner_post label t1 rest ms created y hy)
    · simp only [rrOuter]
      exact rrOuter_post label rest (rrInner label t1 rest ms created).1
        (rrInner label t1 rest ms created).2 p hmem

/-- `rrInner` creates nothing when every visited pair already has a
match. -/
theorem rrInner_noop (label : String) (t1 : Nat) :
    ∀ (rest : List Nat) (ms : List Match) (created : Nat),
      (∀ t2 ∈ rest, matchPairExists ms label t1 t2 = true) →
      rrInner label t1 rest ms created = (ms, created)
  | [], ms, created, _ => rfl
  | t2 :: rest, ms, created, h => by
    have h2 := h t2 (List.mem_cons_self t2 rest)
    simp only [rrInner, h2, if_pos]
    exact rrInner_noop label t1 rest ms created (fun u hu => h u (List.mem_cons_of_mem t2 hu))

/-- `rrOuter` creates nothing when every index pair already has a
match. -/
theorem rrOuter_noop (label : String) :
    ∀ (teams : List Nat) (ms : List Match) (created : Nat),
      (∀ p ∈ consecutivePairs teams, matchPairExists ms label p.1 p.2 = true) →
      rrOuter label teams ms created = (ms, created)
  | [], _, _, _ => rfl
  | t1 :: rest, ms, created, h => by
    have hinner : rrInner label t1 rest ms created = (ms, created) := by
      refine rrInner_noop label t1 rest ms created (fun t2 ht2 => ?_)
      exact h (t1, t2) (by
        simp only [consecutivePairs, List.mem_append, List.mem_map]
        exact Or.inl ⟨t2, ht2, rfl⟩)
    simp only [rrOuter, hinner]
    exact rrOuter_noop label rest ms created (fun p hp =>
      h p (by simp only [consecutivePairs, List.mem_append]; exact Or.inr hp))

/-- `rrGroups` only appends to the match table. -/
theorem rrGroups_append :
    ∀ (groups : List (String × List Nat)) (ms : List Match) (created : Nat),
      ∃ extra, (rrGroups groups ms created).1 = ms ++ extra
  | [], ms, created => ⟨[], by simp [rrGroups]⟩
  | (label, teams) :: rest, ms, created => by
    by_cases hlen : teams.length < 2
    · obtain ⟨extra, hex⟩ := rrGroups_append rest ms created
      refine ⟨extra, ?_⟩
      simp only [rrGroups, rrGroup, hlen, if_pos]
      exact hex
    · obtain ⟨e1, h1⟩ := rrOuter_append label teams ms created
      obtain ⟨e2, h2⟩ := rrGroups_append rest (rrOuter label teams ms created).1
        (rrOuter label teams ms created).2
      refine ⟨e1 ++ e2, ?_⟩
      simp only [rrGroups, rrGroup, hlen, if_false]
      rw [h2, h1, List.append_assoc]

/-- Matches present before `rrGroups` are still found afterwards. -/
theorem rrGroups_mono (groups : List (String × List Nat)) (ms : List Match)
    (created : Nat) (lab : String) (a b : Nat)
    (h : matchPairExists ms lab a b = true) :
    matchPairExists (rrGroups groups ms created).1 lab a b = true := by
  obtain ⟨extra, hex⟩ := rrGroups_append groups ms created
  rw [hex]
  exact matchPairExists_append ms extra lab a b h

/-- After `rrGroups`, every group's every index pair has a match under
that group's label. -/
theorem rrGroups_post :
    ∀ (groups : List (String × List Nat)) (ms : List Match) (created : Nat)
      (g : String × List Nat), g ∈ groups →
      ∀ p ∈ consecutivePairs g.2,
        matchPairExists (rrGroups groups ms created).1 g.1 p.1 p.2 = true
  | [], _, _, g, hg => absurd hg (List.not_mem_nil g)
  | (label, teams) :: rest, ms, created, g, hg => by
    intro p hp
    rcases List.mem_cons.mp hg with rfl | hmem
    · by_cases hlen : teams.length < 2
      · -- fewer than two teams have no index pairs
        exfalso
        match teams, hlen with
        | [], _ => simp [consecutivePairs] at hp
        | [t], _ => simp [consecutivePairs] at hp
      · simp only [rrGroups, rrGroup, hlen, if_false]
        exact rrGroups_mono rest _ _ label p.1 p.2
          (rrOuter_post label teams ms created p hp)
    · simp only [rrGroups]
      exact rrGroups_post rest (rrGroup label teams ms created).1
        (rrGroup label teams ms created).2 g hmem p hp

/-- `rrGroups` creates nothing when every group's every index pair
already has a match. -/
theorem rrGroups_noop :
    ∀ (groups : List (String × List Nat)) (ms : List Match) (created : Nat),
      (∀ g ∈ groups, ∀ p ∈ consecutivePairs g.2,
        matchPairExists ms g.1 p.1 p.2 = true) →
      rrGroups groups ms created = (ms, created)
  | [], _, _, _ => rfl
  | (label, teams) :: rest, ms, created, h => by
    have hgroup : rrGroup label teams ms created = (ms, created) := by
      by_cases hlen : teams.length < 2
      · simp [rrGroup, hlen]
      · simp only [rrGroup, hlen, if_false]
        exact rrOuter_noop label teams ms created
          (fun p hp => h (label, teams) (List.mem_cons_self _ _) p hp)
    simp only [rrGroups, hgroup]
    exact rrGroups_noop rest ms created
      (fun g hg p hp => h g (List.mem_cons_of_mem _ hg) p hp)

/-- C3: Round-robin group-match generation is idempotent — after one
run, every unordered pair of teams sharing a group label has a match
under that group's label (checked in either side order), and running
the generation again on the same grouped entries returns the same match
table with 0 new matches created. -/
theorem generateGroupRoundRobin_idempotent (entries : List (String × Nat))
    (ms : List Match) :
    generateGroupRoundRobinMatches entries
        (generateGroupRoundRobinMatches entries ms).1
      = ((generateGroupRoundRobinMatches entries ms).1, 0) ∧
    (∀ g ∈ groupEntries entries, ∀ p ∈ consecutivePairs g.2,
      matchPairExists (generateGroupRoundRobinMatches entries ms).1 g.1 p.1 p.2
        = true) := by
  have hpost : ∀ g ∈ groupEntries entries, ∀ p ∈ consecutivePairs g.2,
      matchPairExists (generateGroupRoundRobinMatches entries ms).1 g.1 p.1 p.2
        = true := by
    intro g hg p hp
    exact rrGroups_post (groupEntries entries) ms 0 g hg p hp
  refine ⟨?_, hpost⟩
  exact rrGroups_noop (groupEntries entries)
    (generateGroupRoundRobinMatches entries ms).1 0 hpost

/-- C3 witness: one concrete group of two teams — the first run creates
the single pair match, the second run creates nothing, and the pair's
match exists. -/
theorem generateGroupRoundRobin_idempotent_witness :
    generateGroupRoundRobinMatches [("Grupo A", 1), ("Grupo A", 2)]
        (generateGroupRoundRobinMatches [("Grupo A", 1), ("Grupo A", 2)] []).1
      = ((generateGroupRoundRobinMatches [("Grupo A", 1), ("Grupo A", 2)] []).1, 0) ∧
    matchPairExists
        (generateGroupRoundRobinMatches [("Grupo A", 1), ("Grupo A", 2)] []).1
        "Grupo A" 1 2 = true := by
  refine ⟨?_, ?_⟩
  · exact (generateGroupRoundRobin_idempotent [("Grupo A", 1), ("Grupo A", 2)] []).1
  · exact (generateGroupRoundRobin_idempotent [("Grupo A", 1), ("Grupo A", 2)] []).2
      ("Grupo A", [1, 2]) (by decide) (1, 2) (by decide)

/- ## Qualifier-selection refinement lemmas -/

/-- `setdefaultAppend` under a lookup: appending `x` at `label` extends
exactly that key's list. -/
theorem assocGet_setdefaultAppend {α : Type} (g : List (String × List α))
    (label l : String) (x : α) :
    assocGet (setdefaultAppend g label x) l
      = if l = label then assocGet g l ++ [x] else assocGet g l := by
  induction g with
  | nil =>
    by_cases h : l = label
    · subst h
      simp [setdefaultAppend, assocGet]
    · simp [setdefaultAppend, assocGet, h, Ne.symm h]
  | cons hd tl ih =>
    obtain ⟨k, xs⟩ := hd
    by_cases hk : k = label
    · subst hk
      by_cases hq : k = l
      · subst hq
        simp [setdefaultAppend, assocGet]
      · simp [setdefaultAppend, assocGet, hq, Ne.symm hq]
    · by_cases hq : k = l
      · subst hq
        simp [setdefaultAppend, assocGet, hk, Ne.symm hk]
      · simp [setdefaultAppend, assocGet, hk, hq, ih]

/-- Folding `setdefaultAppend` over labeled rows collects, per label,
exactly the rows carrying that label, in order. -/
theorem assocGet_foldl_setdefault {α : Type} :
    ∀ (ps : List (String × α)) (acc : List (String × List α)) (l : String),
      assocGet (ps.foldl (fun g lr => setdefaultAppend g lr.1 lr.2) acc) l
        = assocGet acc l ++ (ps.filter (fun lr => lr.1 = l)).map Prod.snd
  | [], acc, l => by simp
  | (k, v) :: ps, acc, l => by
    rw [List.foldl_cons, assocGet_foldl_setdefault ps (setdefaultAppend acc k v) l,
      assocGet_setdefaultAppend acc k l v]
    by_cases h : l = k
    · subst h
      simp [List.filter_cons]
    · simp [List.filter_cons, h, Ne.symm h]

/-- The key list of a `setdefaultAppend` insertion. -/
theorem keys_setdefaultAppend {α : Type} (g : List (String × List α))
    (label : String) (x : α) :
    (setdefaultAppend g label x).map Prod.fst
      = if (g.map Prod.fst).contains label then g.map Prod.fst
        else g.map Prod.fst ++ [label] := by
  induction g with
  | nil => simp [setdefaultAppend]
  | cons hd tl ih =>
    obtain ⟨k, xs⟩ := hd
    by_cases h : k = label
    · subst h
      simp [setdefaultAppend]
    · by_cases h2 : label ∈ tl.map Prod.fst
      · simp [setdefaultAppend, h, ih, h2, Ne.symm h]
      · simp [setdefaultAppend, h, ih, h2, Ne.symm h]

/-- The key list of the grouping fold is the first-occurrence
deduplication of the encountered labels (Python dict key order before
sorting). -/
theorem keys_foldl_setdefault {α : Type} :
    ∀ (ps : List (String × α)) (acc : List (String × List α)),
      (ps.foldl (fun g lr => setdefaultAppend g lr.1 lr.2) acc).map Prod.fst
        = (ps.map Prod.fst).foldl
            (fun seen l => if seen.contains l then seen else seen ++ [l])
            (acc.map Prod.fst)
  | [], acc => by simp
  | (k, v) :: ps, acc => by
    rw [List.foldl_cons, keys_foldl_setdefault ps (setdefaultAppend acc k v),
      keys_setdefaultAppend acc k v, List.map_cons, List.foldl_cons]

/-- With no labeled enrollment at all, every label lookup fails. -/
theorem lookupGroupLabel_of_no_labeled (ens : List Enrollment)
    (h : (ens.filter (fun e => e.group_label ≠ "")).isEmpty = true) (team : Nat) :
    lookupGroupLabel ens team = none := by
  rw [List.isEmpty_iff] at h
  simp only [lookupGroupLabel]
  rw [h]
  rfl

/-- C5: Group-qualifier collection behaves exactly as the spec words
it: group the standings rows by each team's group label, sort each
group's rows descending by `(wins, gamesFor, gameBalance)`, take the
top `defaultSlots` rows — `smallGroupSlots` when the group's size is
below `expectedGroupSize` — clamped to `[1, group size]`, process the
groups in label-sorted order and concatenate the qualifiers group by
group (never merged by global rank). -/
theorem collectQualifiers_eq_spec (ens : List Enrollment)
    (standings : List StandingsRow) (d s egs : Nat) :
    collectQualifiersFromRows ens standings d s egs
      = specCollectGroupQualifiers ens standings d s egs := by
  by_cases hempty : (ens.filter (fun e => e.group_label ≠ "")).isEmpty = true
  · have hlab : standings.filterMap (fun r =>
        (lookupGroupLabel ens r.team).map (fun l => (l, r))) = [] := by
      refine List.filterMap_eq_nil_iff.mpr (fun r _ => ?_)
      rw [lookupGroupLabel_of_no_labeled ens hempty r.team]
      rfl
    simp [collectQualifiersFromRows, specCollectGroupQualifiers, hempty, hlab,
      sortStrings, sortDescBy]
  · have hkeys :
        ((standings.filterMap (fun r =>
            (lookupGroupLabel ens r.team).map (fun l => (l, r)))).foldl
          (fun g lr => setdefaultAppend g lr.1 lr.2) []).map Prod.fst
          = ((standings.filterMap (fun r =>
              (lookupGroupLabel ens r.team).map (fun l => (l, r)))).map
              Prod.fst).foldl
              (fun seen l => if seen.contains l then seen else seen ++ [l]) [] := by
      simpa using keys_foldl_setdefault (α := StandingsRow)
        (standings.filterMap (fun r =>
          (lookupGroupLabel ens r.team).map (fun l => (l, r)))) []
    have hget : ∀ l,
        assocGet ((standings.filterMap (fun r =>
            (lookupGroupLabel ens r.team).map (fun l => (l, r)))).foldl
          (fun g lr => setdefaultAppend g lr.1 lr.2) []) l
          = ((standings.filterMap (fun r =>
              (lookupGroupLabel ens r.team).map (fun l => (l, r)))).filter
              (fun lr => lr.1 = l)).map Prod.snd := by
      intro l
      simpa using assocGet_foldl_setdefault
        (standings.filterMap (fun r =>
          (lookupGroupLabel ens r.team).map (fun l => (l, r)))) [] l
    have hslots : ∀ n : Nat,
        (if egs ≠ 0 ∧ n < egs then s else d) = (if n < egs then s else d) := by
      intro n
      by_cases h0 : egs = 0
      · subst h0
        simp
      · simp [h0]
    simp only [collectQualifiersFromRows, specCollectGroupQualifiers]
    rw [if_neg hempty, hkeys]
    congr 1
    funext label
    rw [hget label, hslots]

/- ## Knockout gate -/

/-- C1: On a tournament that has no knockout match yet, knockout
progression gathers the group qualifiers and gates on their count:
fewer than 2 fails with `InsufficientQualifiers`, a count failing the
power-of-two bit test `n &&& (n - 1) == 0` fails with `NotPowerOfTwo`,
and in every such failure the state is unchanged and 0 matches are
created — in particular 3 qualifiers fail with `NotPowerOfTwo`. -/
theorem progressKnockout_gate (st : TournamentState) (qpg sgq egs : Nat)
    (hnk : (st.matchRows.filter
      (fun m => m.round_name.startsWith "Mata-mata")).isEmpty = true) :
    ((collectGroupQualifiers st qpg sgq egs).length < 2 →
      progressKnockout st qpg sgq egs
        = (st, 0, some KnockoutMessage.insufficientQualifiers)) ∧
    (2 ≤ (collectGroupQualifiers st qpg sgq egs).length →
      (collectGroupQualifiers st qpg sgq egs).length
          &&& ((collectGroupQualifiers st qpg sgq egs).length - 1) ≠ 0 →
      progressKnockout st qpg sgq egs
        = (st, 0, some KnockoutMessage.notPowerOfTwo)) ∧
    ((collectGroupQualifiers st qpg sgq egs).length = 3 →
      progressKnockout st qpg sgq egs
        = (st, 0, some KnockoutMessage.notPowerOfTwo)) := by
  refine ⟨?_, ?_, ?_⟩
  · intro h
    simp only [progressKnockout]
    rw [if_pos hnk, if_pos h]
  · intro h2 hbit
    simp only [progressKnockout]
    rw [if_pos hnk, if_neg (by omega), if_pos hbit]
  · intro h3
    simp only [progressKnockout]
    rw [if_pos hnk, h3, if_neg (by omega), if_pos (by decide)]

/-- A tournament with one completed group of three teams and no
knockout match: three qualifiers when three slots are granted. -/
def knockoutGateState : TournamentState :=
  { matchRows :=
      [{ round_name := "Grupo A", team_one := 1, team_two := 2,
         winner := some 1, team_one_sets_won := 2, team_two_sets_won := 0,
         team_one_point_sequence := [], team_two_point_sequence := [] },
       { round_name := "Grupo A", team_one := 1, team_two := 3,
         winner := some 1, team_one_sets_won := 2, team_two_sets_won := 0,
         team_one_point_sequence := [], team_two_point_sequence := [] },
       { round_name := "Grupo A", team_one := 2, team_two := 3,
         winner := some 2, team_one_sets_won := 2, team_two_sets_won := 1,
         team_one_point_sequence := [], team_two_point_sequence := [] }]
    enrollments :=
      [{ team := 1, group_label := "Grupo A", stage := Stage.group, seed := none },
       { team := 2, group_label := "Grupo A", stage := Stage.group, seed := none },
       { team := 3, group_label := "Grupo A", stage := Stage.group, seed := none }] }

/-- C1 witness: the three-team group with three qualifier slots yields
exactly 3 qualifiers, and progression fails with the power-of-two
message, creating 0 matches. -/
theorem progressKnockout_gate_witness :
    progressKnockout knockoutGateState 3 1 3
      = (knockoutGateState, 0, some KnockoutMessage.notPowerOfTwo) :=
  (progressKnockout_gate knockoutGateState 3 1 3 (by decide)).2.2 (by decide)

end BeachTennis
